import Mathlib

/-!
Verification of the ttscli streaming/backends core.

The Python source is shallowly embedded: audio samples are float32 values in
the source, but every operation the core performs on them (enqueue, dequeue,
concatenate, split, copy, zero-fill) is value-agnostic, so samples are
modelled by `Int` (with `0` standing for the literal `0.0` the playback
callback writes).  Machine-learning model calls are opaque external services;
their outputs appear as explicit parameters of the embedded functions.
-/

namespace TTSCli

/-- A single audio sample (float32 in the source; the embedding is
value-agnostic, see the module comment). -/
abbrev Sample := Int

/-- One generated audio chunk: a finite ordered sequence of samples. -/
abbrev Chunk := List Sample

/-! ## Streaming Bridge

`MLXTTSBackend.generate_stream` (src/ttscli/backends/mlx.py, lines 238-300)
and `PyTorchTTSBackend.generate_stream` (src/ttscli/backends/pytorch.py,
lines 123-172) both build a `queue.Queue`, start a daemon producer thread
`_produce`, and run the same consumer loop:

    while True:
        while q.empty(): await asyncio.sleep(0.01)
        item = q.get()
        if item is DONE: break
        chunk, sr = item
        is_final = not q.empty() and q.queue[0] is DONE
        yield chunk, sr, is_final
    t.join(timeout=5.0)

An item in the queue is either a `(chunk, sample_rate)` payload or the unique
sentinel object `DONE`. -/

/-- A queue item: a `(chunk, sample_rate)` payload or the `DONE` sentinel. -/
inductive Item where
  | chunk (c : Chunk) (sr : Nat)
  | done
deriving DecidableEq, Repr

/-- Whether an item is the `DONE` sentinel (`item is DONE` in the source). -/
def Item.isDone : Item → Bool
  | .done => true
  | .chunk _ _ => false

/-- The peek `q.queue[0] is DONE` on the remaining queue contents. -/
def headIsDone : List Item → Bool
  | Item.done :: _ => true
  | _ => false

/-- The full FIFO push sequence for a producer that pushes the payloads `cs`
in order and then the sentinel (`q.put((chunk, sr))` repeatedly, then
`q.put(DONE)`). -/
def pushedItems (cs : List (Chunk × Nat)) : List Item :=
  cs.map (fun p => Item.chunk p.1 p.2) ++ [Item.done]

/-- The consumer loop of `generate_stream`, processing the FIFO sequence of
items in push order.  `vis` is the timing oracle of the race in the
`is_final` peek: `vis` records, for each pop, whether the producer had
already enqueued the *next* item at the moment of the `q.empty()` check
(if not, the queue is momentarily empty and `is_final` is `False`).
The loop stops at the sentinel and yields nothing further. -/
def consume : List Item → List Bool → List (Chunk × Nat × Bool)
  | [], _ => []
  | Item.done :: _, _ => []
  | Item.chunk c sr :: rest, vis =>
    (c, sr, vis.headD false && headIsDone rest) :: consume rest vis.tail

/-- Outcome of the model-generation loop inside `_produce`: either the loop
finishes normally having produced `results`, or an exception escapes the
loop after `results` were produced (caught by the `try/except` around the
loop; both backends then still execute `q.put(DONE)`). -/
inductive GenRun where
  | ok (results : List (Chunk × Nat))
  | err (results : List (Chunk × Nat))
deriving DecidableEq, Repr

/-- The model results a `GenRun` delivered before finishing or failing. -/
def GenRun.results : GenRun → List (Chunk × Nat)
  | .ok rs => rs
  | .err rs => rs

/-- `MLXTTSBackend.generate_stream._produce` (mlx.py lines 250-281): each
model result is pushed only `if len(audio) > 0`; after the loop (or after a
caught exception) the sentinel is pushed.  Seeding and warm-up preceding the
`try` block are elided (they do not touch the queue). -/
def mlx_produce (run : GenRun) : List Item :=
  pushedItems (run.results.filter (fun p => 0 < p.1.length))

/-- `PyTorchTTSBackend.generate_stream._produce` (pytorch.py lines 142-154):
every model result is pushed, with no length filter; after the loop (or a
caught, printed exception) the sentinel is pushed. -/
def pt_produce (run : GenRun) : List Item :=
  pushedItems run.results

/-! ### Bridge lemmas shared by several theorems -/

theorem consume_pushedItems (cs : List (Chunk × Nat)) (vis : List Bool) :
    (consume (pushedItems cs) vis).map (fun y => (y.1, y.2.1)) = cs := by
  induction cs generalizing vis with
  | nil => rfl
  | cons p cs ih =>
    cases p
    simp only [pushedItems, List.map_cons, List.cons_append, consume, List.map]
    exact congrArg _ (ih vis.tail)

theorem consume_stops_at_done (cs : List (Chunk × Nat)) (junk : List Item)
    (vis : List Bool) :
    consume (pushedItems cs ++ junk) vis = consume (pushedItems cs) vis := by
  induction cs generalizing vis with
  | nil => rfl
  | cons p cs ih =>
    cases p
    simp only [pushedItems, List.map_cons, List.cons_append, consume] at *
    refine congrArg₂ _ ?_ (ih vis.tail)
    rcases cs with _ | ⟨q, cs⟩
    · rfl
    · rfl

theorem pushedItems_cons (p : Chunk × Nat) (cs : List (Chunk × Nat)) :
    pushedItems (p :: cs) = Item.chunk p.1 p.2 :: pushedItems cs := rfl

theorem pushedItems_count_done (cs : List (Chunk × Nat)) :
    (pushedItems cs).countP (fun i => i.isDone) = 1 := by
  induction cs with
  | nil => rfl
  | cons p cs ih =>
    rw [pushedItems_cons, List.countP_cons, ih]
    rfl

theorem consume_length (cs : List (Chunk × Nat)) (vis : List Bool) :
    (consume (pushedItems cs) vis).length = cs.length := by
  have h := congrArg List.length (consume_pushedItems cs vis)
  simp only [List.length_map] at h
  exact h

theorem consume_flag_last (cs : List (Chunk × Nat)) (vis : List Bool)
    (i : Nat) (c : Chunk) (sr : Nat)
    (h : (consume (pushedItems cs) vis).get? i = some (c, sr, true)) :
    i + 1 = (consume (pushedItems cs) vis).length := by
  induction cs generalizing vis i with
  | nil => simp [pushedItems, consume] at h
  | cons p cs ih =>
    obtain ⟨pc, psr⟩ := p
    simp only [pushedItems, List.map_cons, List.cons_append, consume] at h ⊢
    cases i with
    | zero =>
      simp only [List.get?] at h
      have hflag : (vis.headD false && headIsDone
          (cs.map (fun p => Item.chunk p.1 p.2) ++ [Item.done])) = true := by
        have := congrArg (fun y => y.2.2) (Option.some.inj h)
        simpa using this
      have hcs : cs = [] := by
        rcases cs with _ | ⟨q, cs⟩
        · rfl
        · simp [headIsDone, Bool.and_eq_true] at hflag
      subst hcs
      rfl
    | succ n =>
      simp only [List.get?] at h
      have hlen := ih vis.tail n h
      simp only [pushedItems, List.append_eq] at hlen ⊢
      simp only [List.length_cons]
      omega

theorem consume_mem (cs : List (Chunk × Nat)) (vis : List Bool)
    (y : Chunk × Nat × Bool) (hy : y ∈ consume (pushedItems cs) vis) :
    (y.1, y.2.1) ∈ cs := by
  rw [← consume_pushedItems cs vis]
  exact List.mem_map_of_mem _ hy

/-! ## Batch generation and the streaming façade

`MLXTTSBackend.generate` (mlx.py lines 199-236) collects every audio array
the model's batch call yields and concatenates them (an empty collection
gives the empty waveform); the returned sample rate is the last result's
rate, defaulting to the model's `sample_rate`.
`PyTorchTTSBackend.generate` (pytorch.py lines 104-121) returns
`(wavs[0], sample_rate)` from the model's single batch call (`wavs[0]`
raises when `wavs` is empty, modelled as `none`).
`PyTorchTTSBackend.generate_stream` (pytorch.py lines 123-172) bridges the
model's native chunked call exactly like MLX when
`generate_voice_clone_streaming` exists, and otherwise yields the full
batch waveform as one final chunk.
The opaque model calls appear as parameters: `mBatch`/`mStream` are the
result lists of the MLX model's batch and streaming calls, `wavs`/`sr` the
PyTorch model's batch result, `streamRun` its native streaming run. -/

/-- `MLXTTSBackend.generate`: concatenation of all batch-call results. -/
def mlx_generate (mBatch : List (Chunk × Nat)) (modelSr : Nat) : Chunk × Nat :=
  ((mBatch.map Prod.fst).flatten, ((mBatch.map Prod.snd).getLast?).getD modelSr)

/-- `PyTorchTTSBackend.generate`: `(wavs[0], sample_rate)`. -/
def pt_generate (wavs : List Chunk) (sr : Nat) : Option (Chunk × Nat) :=
  wavs.head?.map (fun w => (w, sr))

/-- `PyTorchTTSBackend.generate_stream`: native-streaming bridge when the
model exposes `generate_voice_clone_streaming`, otherwise the single-chunk
batch fallback `yield audio, sr, True`. -/
def pt_generate_stream (hasStreaming : Bool) (streamRun : GenRun)
    (vis : List Bool) (wavs : List Chunk) (sr : Nat) :
    Option (List (Chunk × Nat × Bool)) :=
  if hasStreaming then some (consume (pt_produce streamRun) vis)
  else (pt_generate wavs sr).map (fun p => [(p.1, p.2, true)])

/-- Total number of samples over all yielded chunks of a stream. -/
def totalSamples (ys : List (Chunk × Nat × Bool)) : Nat :=
  (ys.map (fun y => y.1.length)).sum

theorem totalSamples_consume (cs : List (Chunk × Nat)) (vis : List Bool) :
    totalSamples (consume (pushedItems cs) vis)
      = (cs.map (fun p => p.1.length)).sum := by
  induction cs generalizing vis with
  | nil => rfl
  | cons p cs ih =>
    obtain ⟨pc, psr⟩ := p
    rw [pushedItems_cons]
    simp only [consume, totalSamples, List.map_cons, List.sum_cons] at ih ⊢
    rw [ih vis.tail]

theorem filter_pos_length_sum (cs : List (Chunk × Nat)) :
    ((cs.filter (fun p => 0 < p.1.length)).map (fun p => p.1.length)).sum
      = (cs.map (fun p => p.1.length)).sum := by
  induction cs with
  | nil => rfl
  | cons p cs ih =>
    rcases Nat.eq_zero_or_pos p.1.length with h0 | hpos
    · simp [List.filter_cons, h0, ih]
    · simp [List.filter_cons, hpos, ih]

theorem sum_lengths_eq_join_length (cs : List (Chunk × Nat)) :
    (cs.map (fun p => p.1.length)).sum = (cs.map Prod.fst).flatten.length := by
  rw [List.length_flatten, List.map_map]
  rfl

/-! ## Claim theorems about the Streaming Bridge -/

/-- C1: for every sequence of N chunks pushed by the producer into the
Streaming Bridge queue of `generate_stream`, under every race timing of the
`is_final` peek, the consumer yields exactly those N chunks (with their
sample rates) in push order and stops at the sentinel; exactly one sentinel
appears in the push sequence; and the consumer never yields anything past
the sentinel (appending any junk after the sentinel changes nothing). -/
theorem streaming_bridge_fifo (cs : List (Chunk × Nat)) (vis : List Bool) :
    (consume (pushedItems cs) vis).map (fun y => (y.1, y.2.1)) = cs
    ∧ (consume (pushedItems cs) vis).length = cs.length
    ∧ (pushedItems cs).countP (fun i => i.isDone) = 1
    ∧ ∀ junk : List Item,
        consume (pushedItems cs ++ junk) vis = consume (pushedItems cs) vis :=
  ⟨consume_pushedItems cs vis, consume_length cs vis,
   pushedItems_count_done cs, fun junk => consume_stops_at_done cs junk vis⟩

/-- C3: for every execution of the streaming producer worker — the model
generation loop finishing normally or raising an exception that the
producer's `try/except` swallows — the producer's last queue operation is
the single end-of-stream sentinel, in both the MLX and the PyTorch backend,
so the consumer's polling loop always reaches the sentinel. -/
theorem producer_always_pushes_sentinel (run : GenRun) :
    (mlx_produce run).getLast? = some Item.done
    ∧ (mlx_produce run).countP (fun i => i.isDone) = 1
    ∧ (pt_produce run).getLast? = some Item.done
    ∧ (pt_produce run).countP (fun i => i.isDone) = 1 := by
  refine ⟨?_, pushedItems_count_done _, ?_, pushedItems_count_done _⟩ <;>
    simp [mlx_produce, pt_produce, pushedItems]

/-- C10: the `is_final` flag is sound: in every stream produced over the
bridge (any pushed chunk sequence, any race timing of the peek), a chunk
yielded with `is_final = true` is the last chunk the consumer yields —
no further chunk follows it. -/
theorem is_final_flag_sound (cs : List (Chunk × Nat)) (vis : List Bool)
    (i : Nat) (c : Chunk) (sr : Nat)
    (h : (consume (pushedItems cs) vis).get? i = some (c, sr, true)) :
    i + 1 = (consume (pushedItems cs) vis).length :=
  consume_flag_last cs vis i c sr h

/-- Witness for C10: a concrete two-chunk stream where the peek sees the
sentinel at the second pop, so the second chunk is flagged final, and it is
indeed the last of the two yields. -/
theorem is_final_flag_sound_witness :
    1 + 1 = (consume (pushedItems [([1], 24000), ([2, 3], 24000)])
      [false, true]).length :=
  is_final_flag_sound [([1], 24000), ([2, 3], 24000)] [false, true]
    1 [2, 3] 24000 (by decide)

/-- C2: when the underlying model is deterministic — its streaming chunk
sequence concatenates to the same waveform as its batch call for the same
`(text, voice_prompt, language, seed, instruct)` input — the total sample
count of all chunks yielded by `generate_stream` equals the length of the
waveform returned by `generate`: for the MLX backend (whose producer drops
empty model chunks, which carry no samples), for the PyTorch backend's
native-streaming path, and for the PyTorch batch fallback path. -/
theorem stream_batch_total_sample_equivalence
    (mStream mBatch : List (Chunk × Nat)) (modelSr : Nat) (vis vis2 : List Bool)
    (ptStream : List (Chunk × Nat)) (w : Chunk) (rest : List Chunk) (ptSr : Nat)
    (hm : (mStream.map Prod.fst).flatten = (mBatch.map Prod.fst).flatten)
    (hp : (ptStream.map Prod.fst).flatten = w) :
    totalSamples (consume (mlx_produce (GenRun.ok mStream)) vis)
      = (mlx_generate mBatch modelSr).1.length
    ∧ totalSamples (consume (pt_produce (GenRun.ok ptStream)) vis2) = w.length
    ∧ Option.map totalSamples
        (pt_generate_stream false (GenRun.ok ptStream) vis2 (w :: rest) ptSr)
      = some w.length := by
  refine ⟨?_, ?_, ?_⟩
  · show totalSamples (consume (pushedItems
        ((GenRun.ok mStream).results.filter (fun p => 0 < p.1.length))) vis) = _
    rw [totalSamples_consume, GenRun.results, filter_pos_length_sum,
      sum_lengths_eq_join_length, hm, mlx_generate]
  · show totalSamples (consume (pushedItems (GenRun.ok ptStream).results) vis2) = _
    rw [totalSamples_consume, GenRun.results, sum_lengths_eq_join_length, hp]
  · simp [pt_generate_stream, pt_generate, totalSamples]

/-- Witness for C2: a concrete deterministic model whose streaming chunks
`[1,2]`, `[]`, `[3]` concatenate to its batch waveform `[1,2,3]`. -/
theorem stream_batch_total_sample_equivalence_witness :
    totalSamples (consume (mlx_produce (GenRun.ok
        [([1, 2], 24000), ([], 24000), ([3], 24000)])) [])
      = (mlx_generate [([1, 2, 3], 24000)] 24000).1.length :=
  (stream_batch_total_sample_equivalence
    [([1, 2], 24000), ([], 24000), ([3], 24000)] [([1, 2, 3], 24000)] 24000
    [] [] [([4], 24000), ([5], 24000)] [4, 5] [] 24000
    (by decide) (by decide)).1

/-- C4: when the PyTorch model exposes no native streaming method
(`generate_voice_clone_streaming` absent, `hasStreaming = false`),
`generate_stream` yields exactly one chunk, that chunk is the full waveform
`generate` returns for the same input, and its `is_final` flag is `true`. -/
theorem pt_batch_only_stream_single_final_chunk
    (w : Chunk) (rest : List Chunk) (sr : Nat) (run : GenRun)
    (vis : List Bool) :
    pt_generate_stream false run vis (w :: rest) sr = some [(w, sr, true)]
    ∧ pt_generate (w :: rest) sr = some (w, sr) := by
  constructor <;> rfl

/-- C6 (amended): every chunk yielded by the MLX backend's
`generate_stream` has a strictly positive number of samples — its producer
enqueues a model chunk only `if len(audio) > 0`.  (The PyTorch backend does
not filter; see the counterexample.) -/
theorem mlx_stream_no_zero_length_chunk (run : GenRun) (vis : List Bool)
    (y : Chunk × Nat × Bool) (hy : y ∈ consume (mlx_produce run) vis) :
    0 < y.1.length := by
  have hmem : (y.1, y.2.1) ∈ run.results.filter (fun p => 0 < p.1.length) :=
    consume_mem _ vis y hy
  have := (List.mem_filter.mp hmem).2
  simpa using this

/-- Witness for C6: the MLX producer facing model chunks `[1]` and `[]`
delivers only the one-sample chunk, and its length is positive. -/
theorem mlx_stream_no_zero_length_chunk_witness :
    0 < (([1], 24000, false) : Chunk × Nat × Bool).1.length :=
  mlx_stream_no_zero_length_chunk
    (GenRun.ok [([1], 24000), ([], 24000)]) [] ([1], 24000, false) (by decide)

/-- Counterexample to C6 as stated over every backend: the PyTorch
backend's native-streaming producer pushes model chunks unfiltered, so a
zero-length model chunk is delivered to the consumer as a yielded chunk
with zero samples. -/
theorem pt_stream_zero_length_chunk_delivered :
    consume (pt_produce (GenRun.ok [([], 24000)])) [] = [([], 24000, false)]
    ∧ (([], 24000, false) : Chunk × Nat × Bool).1.length = 0 := by
  constructor <;> rfl

/-! ## Voice prompt cache

`_cache_key(audio_path, text)` (identical in mlx.py lines 22-24 and
pytorch.py lines 15-17) opens the audio file and hashes its raw bytes
concatenated with the UTF-8 encoding of the reference text
(`hashlib.md5(f.read() + text.encode()).hexdigest()`).  The embedding
represents file bytes and encoded text as `List Nat` and takes the hash
function (md5, an external library) as a parameter `h`; opening a missing
file raises, modelled as `none`.  The module-level `_prompt_cache` dict is
an association list with first-match lookup; assignment prepends, which
under first-match lookup is exactly dict overwrite. -/

/-- Raw bytes (file contents, or a UTF-8-encoded reference text). -/
abbrev Bytes := List Nat

/-- The file system visible to the backend: path to contents. -/
structure FSt where
  files : List (String × Bytes)
deriving DecidableEq, Repr

/-- `open(path, "rb").read()`: `none` models the raised `OSError`. -/
def FSt.read (fs : FSt) (p : String) : Option Bytes :=
  (fs.files.find? (fun e => e.1 == p)).map Prod.snd

/-- `Path(p).exists()`. -/
def FSt.pathExists (fs : FSt) (p : String) : Bool :=
  (fs.read p).isSome

/-- `_cache_key`: hash of the raw audio bytes concatenated with the encoded
reference text. -/
def cache_key (h : Bytes → Nat) (audioBytes : Bytes) (text : Bytes) : Nat :=
  h (audioBytes ++ text)

/-- The `_prompt_cache` dict, keyed by `_cache_key` values. -/
abbrev PromptCache (P : Type) := List (Nat × P)

/-- `_prompt_cache[key]` / `key in _prompt_cache`. -/
def cacheFind {P : Type} (c : PromptCache P) (k : Nat) : Option P :=
  (c.find? (fun e => e.1 == k)).map Prod.snd

/-- `_prompt_cache[key] = p` (dict overwrite under first-match lookup). -/
def cacheStore {P : Type} (c : PromptCache P) (k : Nat) (p : P) :
    PromptCache P :=
  (k, p) :: c

/-- The MLX voice prompt dict `{"ref_audio": ..., "ref_text": ...}`. -/
structure MLXPrompt where
  refAudio : String
  refText : Bytes
deriving DecidableEq, Repr

/-- `MLXTTSBackend.create_voice_prompt` (mlx.py lines 169-187).  The model
load that precedes it does not touch the cache and is elided.  On a cache
hit the entry is honored only if its `ref_audio` is non-empty (truthy) and
still exists on disk; otherwise a fresh prompt dict is built and stored.
Returns `(prompt, was_cached, new cache state)`; `none` models the
exception from reading a missing `audio_path` in `_cache_key`. -/
def mlx_create_voice_prompt (h : Bytes → Nat) (fs : FSt)
    (cache : PromptCache MLXPrompt) (audioPath : String)
    (referenceText : Bytes) (useCache : Bool) :
    Option (MLXPrompt × Bool × PromptCache MLXPrompt) :=
  if useCache then
    match fs.read audioPath with
    | none => none
    | some bytes =>
      let key := cache_key h bytes referenceText
      let fresh : MLXPrompt := ⟨audioPath, referenceText⟩
      match cacheFind cache key with
      | some cached =>
        if cached.refAudio ≠ "" ∧ fs.pathExists cached.refAudio then
          some (cached, true, cache)
        else
          some (fresh, false, cacheStore cache key fresh)
      | none => some (fresh, false, cacheStore cache key fresh)
  else
    some (⟨audioPath, referenceText⟩, false, cache)

/-- `PyTorchTTSBackend.create_voice_prompt` (pytorch.py lines 80-102).  A
cache hit is returned unconditionally — there is no file-existence check.
The opaque `model.create_voice_clone_prompt` call appears as the parameter
`mkPrompt`. -/
def pt_create_voice_prompt {P : Type} (mkPrompt : String → Bytes → P)
    (h : Bytes → Nat) (fs : FSt) (cache : PromptCache P)
    (audioPath : String) (referenceText : Bytes) (useCache : Bool) :
    Option (P × Bool × PromptCache P) :=
  if useCache then
    match fs.read audioPath with
    | none => none
    | some bytes =>
      let key := cache_key h bytes referenceText
      match cacheFind cache key with
      | some cached => some (cached, true, cache)
      | none =>
        let p := mkPrompt audioPath referenceText
        some (p, false, cacheStore cache key p)
  else
    some (mkPrompt audioPath referenceText, false, cache)

theorem cacheFind_cacheStore {P : Type} (c : PromptCache P) (k : Nat)
    (p : P) : cacheFind (cacheStore c k p) k = some p := by
  simp [cacheFind, cacheStore, List.find?]

/-- C5 (amended): for both backends, a second `create_voice_prompt` call
with the same (audio bytes, reference text) and `use_cache=true` returns
`cached=true`; the cache key is the hash of the raw audio bytes
concatenated with the reference text.  The file-existence guard on a hit
exists only in the MLX backend: MLX honors a hit only when the cached
prompt's referenced audio file is non-empty-named and still on disk and
otherwise recomputes with `cached=false`, while the PyTorch backend returns
any hit unconditionally (see the counterexample for the claim as stated). -/
theorem create_voice_prompt_cache_spec {P : Type}
    (mkPrompt : String → Bytes → P) (h : Bytes → Nat) (fs : FSt)
    (mcache : PromptCache MLXPrompt) (pcache : PromptCache P)
    (pathB : String) (bytes text : Bytes)
    (hB : fs.read pathB = some bytes) :
    cache_key h bytes text = h (bytes ++ text)
    ∧ (∀ p : MLXPrompt, cacheFind mcache (cache_key h bytes text) = some p →
        p.refAudio ≠ "" → fs.pathExists p.refAudio = true →
        mlx_create_voice_prompt h fs mcache pathB text true
          = some (p, true, mcache))
    ∧ (∀ p : MLXPrompt, cacheFind mcache (cache_key h bytes text) = some p →
        fs.pathExists p.refAudio = false →
        mlx_create_voice_prompt h fs mcache pathB text true
          = some (⟨pathB, text⟩, false,
              cacheStore mcache (cache_key h bytes text) ⟨pathB, text⟩))
    ∧ (∀ q : P, cacheFind pcache (cache_key h bytes text) = some q →
        pt_create_voice_prompt mkPrompt h fs pcache pathB text true
          = some (q, true, pcache))
    ∧ (cacheFind mcache (cache_key h bytes text) = none → pathB ≠ "" →
        mlx_create_voice_prompt h fs mcache pathB text true
          = some (⟨pathB, text⟩, false,
              cacheStore mcache (cache_key h bytes text) ⟨pathB, text⟩)
        ∧ mlx_create_voice_prompt h fs
            (cacheStore mcache (cache_key h bytes text) ⟨pathB, text⟩)
            pathB text true
          = some (⟨pathB, text⟩, true,
              cacheStore mcache (cache_key h bytes text) ⟨pathB, text⟩))
    ∧ (cacheFind pcache (cache_key h bytes text) = none →
        pt_create_voice_prompt mkPrompt h fs pcache pathB text true
          = some (mkPrompt pathB text, false,
              cacheStore pcache (cache_key h bytes text) (mkPrompt pathB text))
        ∧ pt_create_voice_prompt mkPrompt h fs
            (cacheStore pcache (cache_key h bytes text) (mkPrompt pathB text))
            pathB text true
          = some (mkPrompt pathB text, true,
              cacheStore pcache (cache_key h bytes text)
                (mkPrompt pathB text))) := by
  have hex : fs.pathExists pathB = true := by
    simp [FSt.pathExists, hB]
  refine ⟨rfl, ?_, ?_, ?_, ?_, ?_⟩
  · intro p hp hne hpe
    simp [mlx_create_voice_prompt, hB, hp, hne, hpe]
  · intro p hp hpe
    simp [mlx_create_voice_prompt, hB, hp, hpe]
  · intro q hq
    simp [pt_create_voice_prompt, hB, hq]
  · intro hnone hne
    refine ⟨by simp [mlx_create_voice_prompt, hB, hnone], ?_⟩
    simp [mlx_create_voice_prompt, hB, cacheFind_cacheStore, hne, hex]
  · intro hnone
    refine ⟨by simp [pt_create_voice_prompt, hB, hnone], ?_⟩
    simp [pt_create_voice_prompt, hB, cacheFind_cacheStore]

/-- Concrete hash stand-in for md5 in closed instances. -/
def hashLen : Bytes → Nat := List.length

/-- A file system holding only `a.wav` with bytes `[7]`. -/
def fsA : FSt := ⟨[("a.wav", [7])]⟩

/-- The file system after `a.wav` was deleted and `b.wav` was created with
the identical bytes `[7]`. -/
def fsB : FSt := ⟨[("b.wav", [7])]⟩

/-- Witness for C5 (amended): on the MLX backend, a first call with
`b.wav` misses and a second call with the same bytes and text hits with
`cached=true`. -/
theorem create_voice_prompt_cache_spec_witness :
    mlx_create_voice_prompt hashLen fsB
        (cacheStore [] (cache_key hashLen [7] [1]) ⟨"b.wav", [1]⟩)
        "b.wav" [1] true
      = some (⟨"b.wav", [1]⟩, true,
          cacheStore [] (cache_key hashLen [7] [1]) ⟨"b.wav", [1]⟩) :=
  ((create_voice_prompt_cache_spec (fun p _ => p) hashLen fsB [] ([] : PromptCache String)
    "b.wav" [7] [1] (by decide)).2.2.2.2.1 (by decide) (by decide)).2

/-- Counterexample to C5 as stated: on the PyTorch backend, after a first
call registered the prompt built from `a.wav`, deleting `a.wav` and calling
again with the same audio bytes (now in `b.wav`) and the same reference
text still returns `cached=true` — the cached entry is not treated as a
miss even though the referenced audio file no longer exists on disk. -/
theorem pt_cache_hit_despite_missing_file :
    pt_create_voice_prompt (fun p _ => p) hashLen fsA [] "a.wav" [1] true
      = some ("a.wav", false, cacheStore [] (cache_key hashLen [7] [1]) "a.wav")
    ∧ FSt.pathExists fsB "a.wav" = false
    ∧ pt_create_voice_prompt (fun p _ => p) hashLen fsB
        (cacheStore [] (cache_key hashLen [7] [1]) "a.wav") "b.wav" [1] true
      = some ("a.wav", true, cacheStore [] (cache_key hashLen [7] [1]) "a.wav") := by
  refine ⟨by decide, by decide, by decide⟩

/-! ## Model lifecycle

`MLXTTSBackend.load_model_async` (mlx.py lines 102-133) and
`PyTorchTTSBackend.load_model_async` (pytorch.py lines 46-70) follow the
same shape: return immediately if a model of the requested size is already
loaded; otherwise `unload_model()` any loaded model first (clearing the
handle and the current size, and releasing the accelerator cache —
`mx.clear_cache()` / `torch.cuda.empty_cache()`), then `_load_model_sync`
the new one on a worker.  The model handle is recorded as the model path it
was loaded from; side effects are tracked as an event trace. -/

/-- A lifecycle side effect: a full unload (handle deleted, current size
reset, accelerator cache released) or a synchronous load of a size. -/
inductive LoadEvent where
  | unloadModel
  | loadSync (modelSize : String)
deriving DecidableEq, Repr

/-- `MLXTTSBackend` lifecycle fields. -/
structure MLXState where
  model : Option String
  modelSize : String
  currentModelSize : Option String
  warmedUp : Bool
deriving DecidableEq, Repr

/-- `MLXTTSBackend._get_model_path`: dict lookup with the size itself as
fallback. -/
def mlx_get_model_path (s : String) : String :=
  if s = "0.6B" then "mlx-community/Qwen3-TTS-12Hz-0.6B-Base-4bit"
  else if s = "1.7B" then "mlx-community/Qwen3-TTS-12Hz-1.7B-Base-8bit"
  else s

/-- `MLXTTSBackend.unload_model` (mlx.py lines 157-167). -/
def mlx_unload_model (st : MLXState) : MLXState :=
  if st.model.isSome then
    { st with model := none, currentModelSize := none, warmedUp := false }
  else st

/-- `MLXTTSBackend._load_model_sync` (mlx.py lines 113-133). -/
def mlx_load_model_sync (st : MLXState) (size : String) : MLXState :=
  { st with model := some (mlx_get_model_path size),
            currentModelSize := some size, modelSize := size,
            warmedUp := false }

/-- `MLXTTSBackend.load_model_async` with its event trace. -/
def mlx_load_model_async (st : MLXState) (size? : Option String) :
    MLXState × List LoadEvent :=
  let size := size?.getD st.modelSize
  if st.model.isSome ∧ st.currentModelSize = some size then (st, [])
  else
    let prev := if st.model.isSome
      then (mlx_unload_model st, [LoadEvent.unloadModel])
      else (st, ([] : List LoadEvent))
    (mlx_load_model_sync prev.1 size, prev.2 ++ [LoadEvent.loadSync size])

/-- `PyTorchTTSBackend` lifecycle fields (`device` elided: it is fixed at
construction and never touched by loading). -/
structure PTState where
  model : Option String
  modelSize : String
  currentModelSize : Option String
deriving DecidableEq, Repr

/-- `PyTorchTTSBackend._get_model_path`: raises `ValueError` for unknown
sizes, modelled as `none`. -/
def pt_get_model_path (s : String) : Option String :=
  if s = "1.7B" then some "Qwen/Qwen3-TTS-12Hz-1.7B-Base"
  else if s = "0.6B" then some "Qwen/Qwen3-TTS-12Hz-0.6B-Base"
  else none

/-- `PyTorchTTSBackend.unload_model` (pytorch.py lines 72-78). -/
def pt_unload_model (st : PTState) : PTState :=
  if st.model.isSome then { st with model := none, currentModelSize := none }
  else st

/-- `PyTorchTTSBackend._load_model_sync` (pytorch.py lines 57-70); `none`
models the `ValueError` for an unknown size propagating. -/
def pt_load_model_sync (st : PTState) (size : String) : Option PTState :=
  (pt_get_model_path size).map fun p =>
    { st with model := some p, currentModelSize := some size,
              modelSize := size }

/-- `PyTorchTTSBackend.load_model_async` with its event trace; `none`
models the load error propagating to the caller. -/
def pt_load_model_async (st : PTState) (size? : Option String) :
    Option (PTState × List LoadEvent) :=
  let size := size?.getD st.modelSize
  if st.model.isSome ∧ st.currentModelSize = some size then some (st, [])
  else
    let prev := if st.model.isSome
      then (pt_unload_model st, [LoadEvent.unloadModel])
      else (st, ([] : List LoadEvent))
    (pt_load_model_sync prev.1 size).map
      fun st2 => (st2, prev.2 ++ [LoadEvent.loadSync size])

/-- C7: `load` with the already-loaded size is idempotent — it returns at
once with the state unchanged and no side effects; `load` with a different
size first fully unloads the previous model (the intermediate state has a
cleared handle and reset current size, the unload event — which releases
the accelerator cache — precedes the load event) and afterwards the handle
holds exactly the newly requested size.  Stated for both backends (the
PyTorch part for its two known sizes). -/
theorem load_model_lifecycle (st : MLXState) (pst : PTState)
    (size size' : String)
    (hm : st.model.isSome = true) (hc : st.currentModelSize = some size')
    (hpm : pst.model.isSome = true) (hpc : pst.currentModelSize = some size')
    (hdiff : size ≠ size') (hvalid : size = "1.7B" ∨ size = "0.6B") :
    mlx_load_model_async st (some size') = (st, [])
    ∧ mlx_load_model_async st (some size)
        = (mlx_load_model_sync (mlx_unload_model st) size,
           [LoadEvent.unloadModel, LoadEvent.loadSync size])
    ∧ (mlx_unload_model st).model = none
    ∧ (mlx_unload_model st).currentModelSize = none
    ∧ (mlx_load_model_sync (mlx_unload_model st) size).model
        = some (mlx_get_model_path size)
    ∧ (mlx_load_model_sync (mlx_unload_model st) size).currentModelSize
        = some size
    ∧ (mlx_load_model_sync (mlx_unload_model st) size).modelSize = size
    ∧ pt_load_model_async pst (some size') = some (pst, [])
    ∧ pt_load_model_async pst (some size)
        = (pt_load_model_sync (pt_unload_model pst) size).map
            (fun st2 => (st2, [LoadEvent.unloadModel, LoadEvent.loadSync size]))
    ∧ (pt_unload_model pst).model = none
    ∧ (pt_unload_model pst).currentModelSize = none
    ∧ (pt_load_model_sync (pt_unload_model pst) size).map PTState.model
        = some (some ((pt_get_model_path size).getD ""))
    ∧ (pt_load_model_sync (pt_unload_model pst) size).map
        PTState.currentModelSize = some (some size) := by
  have hne : ¬(st.currentModelSize = some size) := by
    rw [hc]; intro hcontra
    exact hdiff (Option.some.inj hcontra).symm
  have hpne : ¬(pst.currentModelSize = some size) := by
    rw [hpc]; intro hcontra
    exact hdiff (Option.some.inj hcontra).symm
  have hp : (pt_get_model_path size).isSome = true := by
    rcases hvalid with hv | hv <;> simp [pt_get_model_path, hv]
  obtain ⟨path, hpath⟩ := Option.isSome_iff_exists.mp hp
  refine ⟨?_, ?_, ?_, ?_, ?_, ?_, ?_, ?_, ?_, ?_, ?_, ?_, ?_⟩
  · simp [mlx_load_model_async, hm, hc]
  · simp [mlx_load_model_async, hm, hne]
  · simp [mlx_unload_model, hm]
  · simp [mlx_unload_model, hm]
  · simp [mlx_load_model_sync]
  · simp [mlx_load_model_sync]
  · simp [mlx_load_model_sync]
  · simp [pt_load_model_async, hpm, hpc]
  · simp [pt_load_model_async, hpm, hpne]
  · simp [pt_unload_model, hpm]
  · simp [pt_unload_model, hpm]
  · simp [pt_load_model_sync, hpath]
  · simp [pt_load_model_sync, hpath]

/-! ## Playback frame callback

`_async_say._audio_callback` (src/ttscli/commands.py, lines 497-514): on a
device request for `frames` output frames it drains whole blocks from the
front of `audio_buffer` while they fit, splits the front block when it is
larger than what is still needed (leaving the unconsumed tail at the
front), and fills every remaining frame with `0.0`.  The mono `outdata`
column is modelled as the returned list; the mutated `audio_buffer` as the
second component. -/

/-- The body of `_audio_callback` for one device request of `needed`
frames against the current buffered block list. -/
def audioCallback (needed : Nat) : List Chunk → Chunk × List Chunk
  | [] => (List.replicate needed 0, [])
  | c :: rest =>
    if needed = 0 then ([], c :: rest)
    else if c.length ≤ needed then
      let r := audioCallback (needed - c.length) rest
      (c ++ r.1, r.2)
    else
      (c.take needed, c.drop needed :: rest)

/-- C8: each callback invocation requesting `n` frames writes exactly `n`
output frames; the output is the first `n` buffered samples in FIFO order
(no sample skipped or duplicated) followed by zeros for every frame the
buffer does not cover; and the samples left in the buffer are exactly the
buffered samples beyond the first `n`, with the split tail at the front. -/
theorem audio_callback_spec (buf : List Chunk) : ∀ n : Nat,
    (audioCallback n buf).1.length = n
    ∧ (audioCallback n buf).1
        = buf.flatten.take n
            ++ List.replicate (n - buf.flatten.length) (0 : Sample)
    ∧ (audioCallback n buf).2.flatten = buf.flatten.drop n := by
  induction buf with
  | nil =>
    intro n
    refine ⟨by simp [audioCallback], by simp [audioCallback], by simp [audioCallback]⟩
  | cons c rest ih =>
    intro n
    by_cases h0 : n = 0
    · subst h0
      refine ⟨by simp [audioCallback], by simp [audioCallback], by simp [audioCallback]⟩
    · by_cases hle : c.length ≤ n
      · obtain ⟨ih1, ih2, ih3⟩ := ih (n - c.length)
        simp only [audioCallback, if_neg h0, if_pos hle, List.flatten_cons]
        refine ⟨?_, ?_, ?_⟩
        · rw [List.length_append, ih1]; omega
        · rw [ih2, List.take_append_eq_append_take,
            List.take_of_length_le hle, List.length_append, ← List.append_assoc]
          have : n - (c.length + rest.flatten.length)
              = n - c.length - rest.flatten.length := by omega
          rw [this]
        · rw [ih3, List.drop_append_eq_append_drop,
            List.drop_of_length_le hle, List.nil_append]
      · have hlt : n < c.length := Nat.lt_of_not_le hle
        simp only [audioCallback, if_neg h0, if_neg hle, List.flatten_cons]
        refine ⟨?_, ?_, ?_⟩
        · rw [List.length_take]; omega
        · rw [List.take_append_of_le_length (Nat.le_of_lt hlt)]
          have : n - (c ++ rest.flatten).length = 0 := by
            rw [List.length_append]; omega
          rw [this, List.replicate_zero, List.append_nil]
        · rw [List.drop_append_of_le_length (Nat.le_of_lt hlt)]

/-! ## Generation history

`add_generation` (src/ttscli/voices.py, lines 204-235) builds a
`Generation` record from its arguments, appends it to `store.history`, and
truncates the list to its last 100 entries (`store.history[-100:]`) when it
exceeds 100.  The nondeterministic `id`/`created_at` defaults (uuid,
timestamp) are elided; `duration` is a Python float, modelled as `Rat`
since the function only stores it. -/

/-- A generation history record (voices.py lines 30-41). -/
structure Generation where
  voiceName : String
  text : String
  language : String
  audioPath : String
  duration : Rat
  modelSize : String
  seed : Option Int
  instruct : Option String
deriving DecidableEq, Repr

/-- `add_generation` acting on the loaded store's history list. -/
def add_generation (history : List Generation)
    (voiceName text language audioPath : String) (duration : Rat)
    (modelSize : String) (seed : Option Int) (instruct : Option String) :
    List Generation :=
  let h := history ++
    [⟨voiceName, text, language, audioPath, duration, modelSize, seed,
      instruct⟩]
  if 100 < h.length then h.drop (h.length - 100) else h

/-- C9: `add_generation` appends exactly one record carrying the given
voice, text, language, path, duration, model size, seed and instruct
fields, then keeps only the most recent 100 entries: the new length is
`min (old + 1) 100` and never exceeds 100; when the list held at most 99
entries the result is exactly the old list plus the new record; when it
held exactly 100, the oldest record is evicted and the length stays 100. -/
theorem add_generation_retention (history : List Generation)
    (vn tx lg ap : String) (du : Rat) (ms : String) (sd : Option Int)
    (ins : Option String) :
    (add_generation history vn tx lg ap du ms sd ins).length
        = min (history.length + 1) 100
    ∧ (add_generation history vn tx lg ap du ms sd ins).length ≤ 100
    ∧ (history.length ≤ 99 →
        add_generation history vn tx lg ap du ms sd ins
          = history ++ [⟨vn, tx, lg, ap, du, ms, sd, ins⟩])
    ∧ (history.length = 100 →
        add_generation history vn tx lg ap du ms sd ins
          = history.tail
              ++ [⟨vn, tx, lg, ap, du, ms, sd, ins⟩]) := by
  refine ⟨?_, ?_, ?_, ?_⟩
  · unfold add_generation
    by_cases h : 100 < history.length + 1
    · rw [if_pos (by simpa using h), List.length_drop]
      simp only [List.length_append, List.length_cons, List.length_nil]
      omega
    · rw [if_neg (by simpa using h)]
      simp only [List.length_append, List.length_cons, List.length_nil]
      omega
  · unfold add_generation
    by_cases h : 100 < history.length + 1
    · rw [if_pos (by simpa using h), List.length_drop]
      simp only [List.length_append, List.length_cons, List.length_nil]
      omega
    · rw [if_neg (by simpa using h)]
      simp only [List.length_append, List.length_cons, List.length_nil]
      omega
  · intro hle
    unfold add_generation
    rw [if_neg (by simp; omega)]
  · intro h100
    unfold add_generation
    rw [if_pos (by simp [h100])]
    have hd : (history ++
        [(⟨vn, tx, lg, ap, du, ms, sd, ins⟩ : Generation)]).length - 100
        = 1 := by
      simp [h100]
    rw [hd, List.drop_append_of_le_length (by omega), List.drop_one]

/-- A placeholder history record for the C9 witness. -/
def gPlaceholder : Generation := ⟨"d", "d", "en", "d", 0, "1.7B", none, none⟩

/-- Witness for C9: adding a 101st record to a history of exactly 100
evicts the oldest record and keeps the length at 100. -/
theorem add_generation_retention_witness :
    add_generation (List.replicate 100 gPlaceholder)
        "v" "hello" "en" "p.wav" 1 "1.7B" none none
      = (List.replicate 100 gPlaceholder).tail
          ++ [⟨"v", "hello", "en", "p.wav", 1, "1.7B", none, none⟩] :=
  (add_generation_retention (List.replicate 100 gPlaceholder)
    "v" "hello" "en" "p.wav" 1 "1.7B" none none).2.2.2 (by simp)

/-- Witness for C7: a concrete backend pair loaded at size `0.6B` being
asked for `1.7B`. -/
theorem load_model_lifecycle_witness :
    mlx_load_model_async
        ⟨some "mlx-community/Qwen3-TTS-12Hz-0.6B-Base-4bit", "0.6B",
         some "0.6B", true⟩ (some "0.6B")
      = (⟨some "mlx-community/Qwen3-TTS-12Hz-0.6B-Base-4bit", "0.6B",
          some "0.6B", true⟩, []) :=
  (load_model_lifecycle
    ⟨some "mlx-community/Qwen3-TTS-12Hz-0.6B-Base-4bit", "0.6B",
     some "0.6B", true⟩
    ⟨some "Qwen/Qwen3-TTS-12Hz-0.6B-Base", "0.6B", some "0.6B"⟩
    "1.7B" "0.6B" (by decide) (by decide) (by decide) (by decide)
    (by decide) (Or.inl (by decide))).1

end TTSCli
